import Mathlib

/-!
Verification of the excelize `DirectWriter` streaming sheet encoder.

This file gives a shallow embedding of the `DirectWriter` code
(`NewDirectWriter`, `AddRow`, `SetWait`, `SetColWidth`, `Close`, `WriteTo`,
`tryFlush`, `buildHeader`, `appendCellNoRef`) and proves the frozen claims
about it.  External collaborators of the core (the row-attribute marshaller,
the cell-value encoder, the XML escaper, the worksheet field serializer and
the column formatting of `fmt.Sprintf`) are abstracted as fields of an
environment record `Env`, exactly at the boundary where the core calls them.
The attached output sink (`io.Writer`) is modelled as a record holding the
bytes delivered so far together with a script of responses for successive
`Write` calls; an exhausted script means every further write succeeds in
full, and a `fail n e` entry means the write accepts `n` bytes and returns
the error `e`, matching the Go `io.Writer` contract.
-/

namespace Excelize

/-- The triple produced by the external value encoder `setCellValFunc`:
a type tag, canonical value text, and the `xml:space` attribute name/value
it installs on the cell (empty value meaning: no such attribute). -/
structure CellEnc where
  t : String
  v : String
  xmlSpaceName : String
  xmlSpaceValue : String
deriving DecidableEq

/-- The cell record `xlsxC` as used by `appendCellNoRef`: style index `s`,
type tag `t`, value text `v`, optional formula `f`, and the `xml:space`
attribute fields. -/
structure XlsxC where
  s : Int
  t : String
  v : String
  f : Option String
  xmlSpaceName : String
  xmlSpaceValue : String
deriving DecidableEq

/-- The input `Cell` struct: a typed value, a style id and an optional
formula string. The value type is abstract (the core never inspects it,
it only hands it to the external value encoder). -/
structure Cell (Val : Type) where
  value : Val
  styleID : Int
  formula : String

/-- Environment of external collaborators called by the `DirectWriter`
core.  `Opts` is the abstract type of `RowOpts`, `Width` the type of the
`float64` column width (abstracted because the core only compares it
against `MaxColumnWidth` and formats it). -/
structure Env (Val Opts Width : Type) where
  /-- `marshalRowAttrs(opts...)`. -/
  marshalRowAttrs : List Opts → Except String String
  /-- `setCellValFunc(&c, val.Value)`: fills `c.T`, `c.V`, `c.XMLSpace`. -/
  setCellVal : Val → Except String CellEnc
  /-- `appendEscapedString(dst, s, true)` as a pure string function. -/
  escape : String → String
  /-- The constant `XMLHeader`. -/
  xmlHeader : String
  /-- The constant `templateNamespaceIDMap`. -/
  nsMap : String
  /-- `bulkAppendFields(w, dw.worksheet, i, j)`: the bytes serialized for
  the worksheet field range `i..j`. -/
  wsFields : Nat → Nat → String
  /-- The comparison `width > MaxColumnWidth`. -/
  widthExceedsMax : Width → Bool
  /-- The `fmt.Sprintf` of one `<col .../>` directive. -/
  fmtCol : Int → Int → Width → String
  /-- The constant `TotalColumns`. -/
  totalColumns : Int

/-- The mutable state of a `DirectWriter` (part_001 version): the fields
`cols`, `maxBufferSize`, `bytesWritten`, `buf`, `out` (as an attachment
flag; the sink itself is threaded separately), `done`, `rowCount`,
`maxColLengths`, `waitMode`, plus the state of the embedded mutex. -/
structure DW where
  cols : String
  maxBufferSize : Int
  bytesWritten : Int
  buf : String
  outAttached : Bool
  doneClosed : Bool
  rowCount : Int
  maxColLengths : List Nat
  waitMode : Bool
  locked : Bool
deriving DecidableEq

/-- The state a fresh `DirectWriter` has after `NewDirectWriter` (which
initializes the struct and registers it, and writes nothing). -/
def freshDW (maxBufferSize : Int) : DW :=
  { cols := "", maxBufferSize := maxBufferSize, bytesWritten := 0, buf := "",
    outAttached := false, doneClosed := false, rowCount := 0,
    maxColLengths := [], waitMode := false, locked := false }

/-- One scripted response of the sink to a `Write` call: full success, or
failure with the error `e` after accepting `n` bytes. -/
inductive WResp where
  | ok : WResp
  | fail : Nat → String → WResp
deriving DecidableEq

/-- An attached sink: the bytes delivered so far and the script of
responses for the upcoming `Write` calls (exhausted script = success). -/
structure Sink where
  written : String
  script : List WResp
deriving DecidableEq

/-- One `Write(p)` call on the sink, returning `(n, err)` and the new sink
state.  On failure the sink keeps the `n` accepted bytes. -/
def sinkWrite (s : Sink) (p : String) : (Nat × Option String) × Sink :=
  match s.script with
  | [] => ((p.length, none), { written := s.written ++ p, script := [] })
  | WResp.ok :: rest => ((p.length, none), { written := s.written ++ p, script := rest })
  | WResp.fail n e :: rest =>
      ((min n p.length, some e),
        { written := s.written ++ p.take (min n p.length), script := rest })

/-- `appendCellNoRef` of the current (`part_001`) source: emits `<c>` with
the conditional `xml:space`, `s` (iff `c.S != 0`) and `t` attributes, then
the optional `<f>` and `<v>` children. -/
def appendCellNoRef (escape : String → String) (dst : String) (c : XlsxC) : String :=
  let dst := dst ++ "<c"
  let dst := if c.xmlSpaceValue ≠ "" then
    dst ++ " xml:" ++ c.xmlSpaceName ++ "=\"" ++ c.xmlSpaceValue ++ "\"" else dst
  let dst := if c.s ≠ 0 then dst ++ " s=\"" ++ toString c.s ++ "\"" else dst
  let dst := if c.t ≠ "" then dst ++ " t=\"" ++ c.t ++ "\"" else dst
  let dst := dst ++ ">"
  let dst := match c.f with
    | some fc => dst ++ "<f>" ++ escape fc ++ "</f>"
    | none => dst
  let dst := if c.v ≠ "" then dst ++ "<v>" ++ escape c.v ++ "</v>" else dst
  dst ++ "</c>"

/-- `appendCellNoRef` of the older `direct.go` source: the style attribute
is guarded by `c.S > 1`, and the `xml:space` attribute is emitted with a
stray double quote after `xml:`. -/
def appendCellNoRefV0 (escape : String → String) (dst : String) (c : XlsxC) : String :=
  let dst := dst ++ "<c"
  let dst := if c.xmlSpaceValue ≠ "" then
    dst ++ " xml:\"" ++ c.xmlSpaceName ++ "=\"" ++ c.xmlSpaceValue ++ "\"" else dst
  let dst := if c.s > 1 then dst ++ " s=\"" ++ toString c.s ++ "\"" else dst
  let dst := if c.t ≠ "" then dst ++ " t=\"" ++ c.t ++ "\"" else dst
  let dst := dst ++ ">"
  let dst := match c.f with
    | some fc => dst ++ "<f>" ++ escape fc ++ "</f>"
    | none => dst
  let dst := if c.v ≠ "" then dst ++ "<v>" ++ escape c.v ++ "</v>" else dst
  dst ++ "</c>"

variable {Val Opts Width : Type}

/-- Building the `xlsxC` record inside the `AddRow` loop: style from the
cell, formula pointer iff the formula string is non-empty, then the fields
installed by `setCellValFunc` (or its error). -/
def encodeCell (env : Env Val Opts Width) (val : Cell Val) : Except String XlsxC :=
  match env.setCellVal val.value with
  | Except.error e => Except.error e
  | Except.ok enc =>
      Except.ok
        { s := val.styleID, t := enc.t, v := enc.v,
          f := if val.formula ≠ "" then some val.formula else none,
          xmlSpaceName := enc.xmlSpaceName, xmlSpaceValue := enc.xmlSpaceValue }

/-- The cell loop of `AddRow`: encodes the cells in order starting at
column index `i`, appending to `buf` and updating `maxColLengths`; stops
at the first value-encoding error (the failing cell contributes no
bytes).  The `</row>` tag is appended by the caller on both exits, as in
the source. -/
def addCells (env : Env Val Opts Width) :
    Nat → List (Cell Val) → String → List Nat → String × List Nat × Option String
  | _, [], buf, mcl => (buf, mcl, none)
  | i, v :: rest, buf, mcl =>
    match encodeCell env v with
    | Except.error e => (buf, mcl, some e)
    | Except.ok c =>
        let mcl := if c.v.length > mcl.getD i 0 then mcl.set i c.v.length else mcl
        addCells env (i + 1) rest (appendCellNoRef env.escape buf c) mcl

/-- The `maxColLengths` growth step of `AddRow`: a fresh zeroed slice of
length `n` with the old contents copied in, when `n` exceeds the current
length. -/
def growMCL (mcl : List Nat) (n : Nat) : List Nat :=
  if n > mcl.length then mcl ++ List.replicate (n - mcl.length) 0 else mcl

/-- The row-attribute marshalling step of `AddRow` (skipped when no
options are supplied). -/
def rowAttrsRes (env : Env Val Opts Width) (opts : List Opts) : Except String String :=
  if opts.isEmpty then Except.ok "" else env.marshalRowAttrs opts

/-- The encoding part of `AddRow` (everything before the flush check):
increments `rowCount`, appends `<row r="N"`, marshals and appends the row
attributes when options are present (early error return leaves the open
fragment), appends `>`, grows `maxColLengths`, runs the cell loop, and
appends `</row>` on both the success and the cell-error exit. -/
def addRowEncode (env : Env Val Opts Width) (values : List (Cell Val))
    (opts : List Opts) (dw : DW) : Option String × DW :=
  let dw := { dw with rowCount := dw.rowCount + 1 }
  let dw := { dw with buf := dw.buf ++ "<row r=\"" ++ toString dw.rowCount ++ "\"" }
  match rowAttrsRes env opts with
  | Except.error e => (some e, dw)
  | Except.ok attrs =>
      let dw := { dw with buf := dw.buf ++ attrs ++ ">" }
      let dw := { dw with maxColLengths := growMCL dw.maxColLengths values.length }
      let r := addCells env 0 values dw.buf dw.maxColLengths
      let dw := { dw with buf := r.1 ++ "</row>", maxColLengths := r.2.1 }
      (r.2.2, dw)

/-- `buildHeader`: the XML prolog, the worksheet open tag with namespaces,
the worksheet fields 2..5, the `<cols>` block when width directives exist,
and the `<sheetData>` open tag — built from the state at call time. -/
def buildHeader (env : Env Val Opts Width) (dw : DW) : String :=
  env.xmlHeader ++ "<worksheet" ++ env.nsMap ++ env.wsFields 2 5 ++
    (if dw.cols.length > 0 then "<cols>" ++ dw.cols ++ "</cols>" else "") ++
    "<sheetData>"

/-- `tryFlush`: takes the lock; no-ops (unlocking) without a sink; on the
first flush (`bytesWritten == 0`) writes the lazily built header first —
returning a header-write error with the lock still held — then writes the
buffer, unlocks, and on success accumulates `bytesWritten` and resets the
buffer; a buffer-write error is returned after unlocking with the buffer
left untouched. -/
def tryFlush (env : Env Val Opts Width) (dw : DW) (sink : Sink) :
    Option String × DW × Sink :=
  let dw := { dw with locked := true }
  if dw.outAttached = false then
    (none, { dw with locked := false }, sink)
  else if dw.bytesWritten = 0 then
    let h := sinkWrite sink (buildHeader env dw)
    match h.1.2 with
    | some e => (some e, dw, h.2)
    | none =>
        let dw := { dw with bytesWritten := dw.bytesWritten + Int.ofNat h.1.1 }
        let b := sinkWrite h.2 dw.buf
        let dw := { dw with locked := false }
        match b.1.2 with
        | some e => (some e, dw, b.2)
        | none =>
            let bw := dw.bytesWritten + Int.ofNat b.1.1
            (none, { dw with bytesWritten := bw, buf := "" }, b.2)
  else
    let b := sinkWrite sink dw.buf
    let dw := { dw with locked := false }
    match b.1.2 with
    | some e => (some e, dw, b.2)
    | none =>
        let bw := dw.bytesWritten + Int.ofNat b.1.1
        (none, { dw with bytesWritten := bw, buf := "" }, b.2)

/-- `AddRow`: the row encoding followed by the flush check
`len(buf) > maxBufferSize && !waitMode`; the returned buffered count is
`len(dw.buf)` read after the flush attempt, and a flush error is passed
through. -/
def addRow (env : Env Val Opts Width) (values : List (Cell Val))
    (opts : List Opts) (dw : DW) (sink : Sink) :
    (Int × Option String) × DW × Sink :=
  match addRowEncode env values opts dw with
  | (some e, dw) => ((Int.ofNat dw.buf.length, some e), dw, sink)
  | (none, dw) =>
      if Int.ofNat dw.buf.length > dw.maxBufferSize ∧ dw.waitMode = false then
        let r := tryFlush env dw sink
        ((Int.ofNat r.2.1.buf.length, r.1), r.2.1, r.2.2)
      else
        ((Int.ofNat dw.buf.length, none), dw, sink)

/-- `SetWait`: enabling fails when data already reached the sink;
disabling always succeeds. -/
def setWait (b : Bool) (dw : DW) : Option String × DW :=
  if b then
    if dw.bytesWritten > 0 then
      (some "Can\x27t enable wait mode since first data already written.", dw)
    else (none, { dw with waitMode := true })
  else (none, { dw with waitMode := false })

/-- `SetColWidth`: validations, the min/max swap and the appended `<col>`
directive. -/
def setColWidth (env : Env Val Opts Width) (mi ma : Int) (w : Width) (dw : DW) :
    Option String × DW :=
  if dw.bytesWritten > 0 then
    (some "Can\x27t set col width since first data already written.", dw)
  else if mi > env.totalColumns ∨ ma > env.totalColumns then
    (some "ErrColumnNumber", dw)
  else if mi < 1 ∨ ma < 1 then
    (some "ErrColumnNumber", dw)
  else if env.widthExceedsMax w = true then
    (some "ErrColumnWidth", dw)
  else
    let p := if mi > ma then (ma, mi) else (mi, ma)
    (none, { dw with cols := dw.cols ++ env.fmtCol p.1 p.2 w })

/-- The trailing bytes `Close` appends to the buffer before its forced
flush: `</sheetData>`, the worksheet fields 8..15, 17..38 and 40..40, and
`</worksheet>`. -/
def closingBytes (env : Env Val Opts Width) : String :=
  "</sheetData>" ++ env.wsFields 8 15 ++ env.wsFields 17 38 ++
    env.wsFields 40 40 ++ "</worksheet>"

/-- `Close`: appends the closing structural elements, forces a flush, and
on success deregisters the sheet (external) and raises the completion
signal (`done` closed).  A flush error is returned with the signal not
raised. -/
def closeDW (env : Env Val Opts Width) (dw : DW) (sink : Sink) :
    Option String × DW × Sink :=
  let dw := { dw with buf := dw.buf ++ closingBytes env }
  let r := tryFlush env dw sink
  match r.1 with
  | some e => (some e, r.2.1, r.2.2)
  | none => (none, { r.2.1 with doneClosed := true }, r.2.2)

/-- The replay branch of `WriteTo` (taken when the completion signal has
fired): rejects when data was already flushed, otherwise writes the
header, then the buffer, to the supplied writer and returns the total. -/
def writeToDone (env : Env Val Opts Width) (dw : DW) (w : Sink) :
    (Int × Option String) × Sink :=
  if dw.bytesWritten > 0 then
    ((0, some "Cant\x27t write to new writer w since part of the data already been written and flushed."), w)
  else
    let h := sinkWrite w (buildHeader env dw)
    match h.1.2 with
    | some e => ((Int.ofNat h.1.1, some e), h.2)
    | none =>
        let b := sinkWrite h.2 dw.buf
        ((Int.ofNat (h.1.1 + b.1.1), b.1.2), b.2)

/-- The outcome of `WriteTo`: either the non-blocking replay (done branch
of the select) or the attachment of the sink followed by blocking until
the completion signal. -/
inductive WriteToOutcome where
  | replay : (Int × Option String) × Sink → WriteToOutcome
  | blockedAfterAttach : DW → WriteToOutcome

/-- `WriteTo`: the select on the completion channel — replay when done,
otherwise record the sink under the lock and block. -/
def writeTo (env : Env Val Opts Width) (dw : DW) (w : Sink) : WriteToOutcome :=
  if dw.doneClosed then WriteToOutcome.replay (writeToDone env dw w)
  else WriteToOutcome.blockedAfterAttach { dw with outAttached := true }

/-- The state effect of `WriteTo` on the writer (the replay branch writes
to the new writer only; the default branch records the sink). -/
def writeToDW (dw : DW) : DW :=
  if dw.doneClosed then dw else { dw with outAttached := true }

/-- One operation the producer (or the consumer, for `attach`) can invoke
on a `DirectWriter`. -/
inductive Op (Val Opts Width : Type) where
  | addRow : List (Cell Val) → List Opts → Op Val Opts Width
  | setColWidth : Int → Int → Width → Op Val Opts Width
  | setWait : Bool → Op Val Opts Width
  | attach : Op Val Opts Width
  | close : Op Val Opts Width

/-- The state transition of one operation (return values dropped). -/
def runOp (env : Env Val Opts Width) : Op Val Opts Width → DW → Sink → DW × Sink
  | Op.addRow vs os, dw, sink => (addRow env vs os dw sink).2
  | Op.setColWidth mi ma w, dw, sink => ((setColWidth env mi ma w dw).2, sink)
  | Op.setWait b, dw, sink => ((setWait b dw).2, sink)
  | Op.attach, dw, sink => (writeToDW dw, sink)
  | Op.close, dw, sink => (closeDW env dw sink).2

/-- Running a sequence of operations. -/
def runTrace (env : Env Val Opts Width) : List (Op Val Opts Width) → DW → Sink → DW × Sink
  | [], dw, sink => (dw, sink)
  | op :: ops, dw, sink =>
      let st := runOp env op dw sink
      runTrace env ops st.1 st.2

/-- The number of `AddRow` operations in a trace. -/
def countAddRows : List (Op Val Opts Width) → Nat
  | [] => 0
  | Op.addRow _ _ :: ops => countAddRows ops + 1
  | Op.setColWidth _ _ _ :: ops => countAddRows ops
  | Op.setWait _ :: ops => countAddRows ops
  | Op.attach :: ops => countAddRows ops
  | Op.close :: ops => countAddRows ops

/-- The row numbers written into the output by the successive `AddRow`
operations of a trace (each `AddRow` stamps `rowCount + 1` into its
`<row r="..."` fragment, see `rowBytes` and `addRowEncode_eq`). -/
def emittedRowNums (env : Env Val Opts Width) :
    List (Op Val Opts Width) → DW → Sink → List Int
  | [], _, _ => []
  | Op.addRow vs os :: ops, dw, sink =>
      let st := runOp env (Op.addRow vs os) dw sink
      (dw.rowCount + 1) :: emittedRowNums env ops st.1 st.2
  | op :: ops, dw, sink =>
      let st := runOp env op dw sink
      emittedRowNums env ops st.1 st.2

/-- The bytes the cell loop appends for a list of cells (cells after the
first failing one, and the failing cell itself, contribute nothing). -/
def cellsStr (env : Env Val Opts Width) : List (Cell Val) → String
  | [] => ""
  | v :: rest =>
    match encodeCell env v with
    | Except.error _ => ""
    | Except.ok c => appendCellNoRef env.escape "" c ++ cellsStr env rest

/-- The error produced by the cell loop, if any. -/
def cellsErr (env : Env Val Opts Width) : List (Cell Val) → Option String
  | [] => none
  | v :: rest =>
    match encodeCell env v with
    | Except.error e => some e
    | Except.ok _ => cellsErr env rest

/-- The `maxColLengths` update performed by the cell loop. -/
def cellsMcl (env : Env Val Opts Width) : Nat → List (Cell Val) → List Nat → List Nat
  | _, [], mcl => mcl
  | i, v :: rest, mcl =>
    match encodeCell env v with
    | Except.error _ => mcl
    | Except.ok c =>
        cellsMcl env (i + 1) rest
          (if c.v.length > mcl.getD i 0 then mcl.set i c.v.length else mcl)

/-- The error `AddRow`'s encoding phase reports for given cells and
options. -/
def rowErr (env : Env Val Opts Width) (values : List (Cell Val)) (opts : List Opts) :
    Option String :=
  match rowAttrsRes env opts with
  | Except.error e => some e
  | Except.ok _ => cellsErr env values

/-- The bytes `AddRow`'s encoding phase appends to the buffer for row
number `r`: on a row-attribute error only the open fragment
`<row r="N"`; otherwise the full row element (truncated after the last
successfully encoded cell and closed with `</row>` when a cell fails). -/
def rowBytes (env : Env Val Opts Width) (values : List (Cell Val)) (opts : List Opts)
    (r : Int) : String :=
  match rowAttrsRes env opts with
  | Except.error _ => "<row r=\"" ++ toString r ++ "\""
  | Except.ok attrs =>
      "<row r=\"" ++ toString r ++ "\"" ++ attrs ++ ">" ++ cellsStr env values ++ "</row>"

/-- The `maxColLengths` transformation of `AddRow`'s encoding phase. -/
def rowMcl (env : Env Val Opts Width) (values : List (Cell Val)) (opts : List Opts)
    (mcl : List Nat) : List Nat :=
  match rowAttrsRes env opts with
  | Except.error _ => mcl
  | Except.ok _ => cellsMcl env 0 values (growMCL mcl values.length)


/-- A small concrete environment used to exercise the operations on
concrete inputs: values are strings (the value "ERR" fails to encode,
a value ending in a space gets the whitespace-preservation attribute),
options are strings (the option "bad" fails to marshal). -/
def envW : Env String String Unit :=
  { marshalRowAttrs := fun os =>
      if os.contains "bad" then Except.error "badopt"
      else Except.ok (String.join os),
    setCellVal := fun v =>
      if v = "ERR" then Except.error "encfail"
      else Except.ok
        { t := "str", v := v, xmlSpaceName := "space",
          xmlSpaceValue := if v = "bar " then "preserve" else "" },
    escape := fun s => s,
    xmlHeader := "<?xml?>",
    nsMap := " xmlns=\"ns\"",
    wsFields := fun i _ => if i = 2 then "<dim/>" else if i = 8 then "<tail/>" else "",
    widthExceedsMax := fun _ => false,
    fmtCol := fun mi ma _ =>
      "<col min=\"" ++ toString mi ++ "\" max=\"" ++ toString ma ++ "\"/>",
    totalColumns := 16384 }

/-- A concrete plain string cell with the default style and no formula. -/
def cellW (s : String) : Cell String :=
  { value := s, styleID := 0, formula := "" }


/-- A concrete writer that already flushed seven bytes and holds "HELLO". -/
def dwW7 : DW :=
  { freshDW 4 with outAttached := true, bytesWritten := 7, buf := "HELLO" }

/-- A concrete sink whose next write fails after accepting two bytes. -/
def sinkFailW : Sink := { written := "", script := [WResp.fail 2 "boom"] }


/-- A concrete writer whose completion signal fired with nothing flushed. -/
def dwDoneW : DW := { freshDW 4 with doneClosed := true, buf := "<row/>" }


/-- A concrete attached writer in wait mode with a tiny threshold. -/
def dwWaitW : DW := { freshDW 5 with outAttached := true, waitMode := true }


/-- A concrete attached writer with buffered bytes and nothing flushed. -/
def dwHdrW : DW := { freshDW 4 with outAttached := true, buf := "HELLO" }


/-- Substring occurrence check on character lists. -/
def containsSub (hay sub : List Char) : Bool :=
  match hay with
  | [] => sub.isEmpty
  | _ :: rest => sub.isPrefixOf hay || containsSub rest sub

/-- Substring occurrence check on strings. -/
def strHasSub (s sub : String) : Bool := containsSub s.data sub.data

/-- A cell record with style index 1 and nothing else. -/
def cS1 : XlsxC :=
  { s := 1, t := "", v := "", f := none, xmlSpaceName := "", xmlSpaceValue := "" }

/-! ## Basic factorization lemmas -/

theorem appendCellNoRef_factor (esc : String → String) (dst : String) (c : XlsxC) :
    appendCellNoRef esc dst c = dst ++ appendCellNoRef esc "" c := by
  unfold appendCellNoRef
  cases hf : c.f <;> split_ifs <;>
    simp [hf, String.append_assoc, String.empty_append]

theorem addCells_eq (env : Env Val Opts Width) (i : Nat) (vs : List (Cell Val))
    (buf : String) (mcl : List Nat) :
    addCells env i vs buf mcl =
      (buf ++ cellsStr env vs, cellsMcl env i vs mcl, cellsErr env vs) := by
  induction vs generalizing i buf mcl with
  | nil => simp [addCells, cellsStr, cellsMcl, cellsErr]
  | cons v rest ih =>
    simp only [addCells, cellsStr, cellsMcl, cellsErr]
    cases h : encodeCell env v with
    | error e => simp
    | ok c =>
      simp only [ih]
      rw [appendCellNoRef_factor]
      simp [String.append_assoc]

theorem addRowEncode_eq (env : Env Val Opts Width) (vs : List (Cell Val))
    (os : List Opts) (dw : DW) :
    addRowEncode env vs os dw =
      (rowErr env vs os,
       { dw with rowCount := dw.rowCount + 1,
                 buf := dw.buf ++ rowBytes env vs os (dw.rowCount + 1),
                 maxColLengths := rowMcl env vs os dw.maxColLengths }) := by
  unfold addRowEncode rowErr rowBytes rowMcl
  cases h : rowAttrsRes env os with
  | error e => simp [String.append_assoc]
  | ok attrs =>
    simp only [addCells_eq]
    simp [String.append_assoc]

/-! ## `tryFlush` case analysis -/

theorem tryFlush_noSink (env : Env Val Opts Width) (dw : DW) (sink : Sink)
    (h : dw.outAttached = false) :
    tryFlush env dw sink = (none, { dw with locked := false }, sink) := by
  simp [tryFlush, h]

theorem tryFlush_firstFlush_ok (env : Env Val Opts Width) (dw : DW) (sink : Sink)
    (h : dw.outAttached = true) (h0 : dw.bytesWritten = 0) (hs : sink.script = []) :
    tryFlush env dw sink =
      (none,
       { dw with locked := false,
                 bytesWritten := Int.ofNat (buildHeader env dw).length +
                   Int.ofNat dw.buf.length,
                 buf := "" },
       { written := sink.written ++ buildHeader env dw ++ dw.buf, script := [] }) := by
  obtain ⟨w, scr⟩ := sink
  simp only at hs
  subst hs
  simp [tryFlush, sinkWrite, h, h0, buildHeader, String.append_assoc]

theorem tryFlush_laterFlush_ok (env : Env Val Opts Width) (dw : DW) (sink : Sink)
    (h : dw.outAttached = true) (h0 : ¬ dw.bytesWritten = 0) (hs : sink.script = []) :
    tryFlush env dw sink =
      (none,
       { dw with locked := false,
                 bytesWritten := dw.bytesWritten + Int.ofNat dw.buf.length,
                 buf := "" },
       { written := sink.written ++ dw.buf, script := [] }) := by
  obtain ⟨w, scr⟩ := sink
  simp only at hs
  subst hs
  simp [tryFlush, sinkWrite, h, h0]

theorem tryFlush_headerFail (env : Env Val Opts Width) (dw : DW) (sink : Sink)
    (n : Nat) (e : String) (rest : List WResp)
    (h : dw.outAttached = true) (h0 : dw.bytesWritten = 0)
    (hs : sink.script = WResp.fail n e :: rest) :
    tryFlush env dw sink =
      (some e, { dw with locked := true },
       { written := sink.written ++
           (buildHeader env dw).take (min n (buildHeader env dw).length),
         script := rest }) := by
  obtain ⟨w, scr⟩ := sink
  simp only at hs
  subst hs
  simp [tryFlush, sinkWrite, h, h0, buildHeader]

theorem tryFlush_bufFail (env : Env Val Opts Width) (dw : DW) (sink : Sink)
    (n : Nat) (e : String) (rest : List WResp)
    (h : dw.outAttached = true) (h0 : ¬ dw.bytesWritten = 0)
    (hs : sink.script = WResp.fail n e :: rest) :
    tryFlush env dw sink =
      (some e, { dw with locked := false },
       { written := sink.written ++ dw.buf.take (min n dw.buf.length),
         script := rest }) := by
  obtain ⟨w, scr⟩ := sink
  simp only at hs
  subst hs
  simp [tryFlush, sinkWrite, h, h0]

theorem tryFlush_firstFlush_bufFail (env : Env Val Opts Width) (dw : DW) (sink : Sink)
    (n : Nat) (e : String) (rest : List WResp)
    (h : dw.outAttached = true) (h0 : dw.bytesWritten = 0)
    (hs : sink.script = WResp.ok :: WResp.fail n e :: rest) :
    tryFlush env dw sink =
      (some e,
       { dw with locked := false,
                 bytesWritten := Int.ofNat (buildHeader env dw).length },
       { written := sink.written ++ buildHeader env dw ++
           dw.buf.take (min n dw.buf.length),
         script := rest }) := by
  obtain ⟨w, scr⟩ := sink
  simp only at hs
  subst hs
  simp [tryFlush, sinkWrite, h, h0, buildHeader, String.append_assoc]

/-- `tryFlush` only touches `locked`, `bytesWritten`, `buf` (and the
sink); all other fields survive. -/
theorem tryFlush_preserves (env : Env Val Opts Width) (dw : DW) (sink : Sink) :
    (tryFlush env dw sink).2.1.rowCount = dw.rowCount ∧
    (tryFlush env dw sink).2.1.cols = dw.cols ∧
    (tryFlush env dw sink).2.1.maxColLengths = dw.maxColLengths ∧
    (tryFlush env dw sink).2.1.waitMode = dw.waitMode ∧
    (tryFlush env dw sink).2.1.outAttached = dw.outAttached ∧
    (tryFlush env dw sink).2.1.doneClosed = dw.doneClosed ∧
    (tryFlush env dw sink).2.1.maxBufferSize = dw.maxBufferSize := by
  simp only [tryFlush]
  split_ifs <;> (try split) <;> (try split) <;> simp_all

/-- The encoding phase of `AddRow` only touches `rowCount`, `buf` and
`maxColLengths`. -/
theorem addRowEncode_preserves (env : Env Val Opts Width) (vs : List (Cell Val))
    (os : List Opts) (dw : DW) :
    (addRowEncode env vs os dw).2.cols = dw.cols ∧
    (addRowEncode env vs os dw).2.bytesWritten = dw.bytesWritten ∧
    (addRowEncode env vs os dw).2.waitMode = dw.waitMode ∧
    (addRowEncode env vs os dw).2.outAttached = dw.outAttached ∧
    (addRowEncode env vs os dw).2.doneClosed = dw.doneClosed ∧
    (addRowEncode env vs os dw).2.locked = dw.locked ∧
    (addRowEncode env vs os dw).2.maxBufferSize = dw.maxBufferSize ∧
    (addRowEncode env vs os dw).2.rowCount = dw.rowCount + 1 := by
  rw [addRowEncode_eq]
  exact ⟨rfl, rfl, rfl, rfl, rfl, rfl, rfl, rfl⟩

/-- `addRow` increments `rowCount` by exactly one, on every path. -/
theorem addRow_rowCount (env : Env Val Opts Width) (vs : List (Cell Val))
    (os : List Opts) (dw : DW) (sink : Sink) :
    (addRow env vs os dw sink).2.1.rowCount = dw.rowCount + 1 := by
  unfold addRow
  cases h : addRowEncode env vs os dw with
  | mk r dw' =>
    have hp : dw'.rowCount = dw.rowCount + 1 := by
      have hq := (addRowEncode_preserves env vs os dw).2.2.2.2.2.2.2
      rw [h] at hq
      exact hq
    cases r with
    | none =>
        simp only
        split_ifs with hc
        · rw [(tryFlush_preserves env dw' sink).1, hp]
        · exact hp
    | some e => exact hp

/-! ## Row-number bookkeeping across traces -/

theorem setColWidth_rowCount (env : Env Val Opts Width) (mi ma : Int) (w : Width)
    (dw : DW) : (setColWidth env mi ma w dw).2.rowCount = dw.rowCount := by
  unfold setColWidth
  split_ifs <;> rfl

theorem setWait_rowCount (b : Bool) (dw : DW) :
    (setWait b dw).2.rowCount = dw.rowCount := by
  unfold setWait
  split_ifs <;> rfl

theorem writeToDW_rowCount (dw : DW) : (writeToDW dw).rowCount = dw.rowCount := by
  unfold writeToDW
  split_ifs <;> rfl

theorem closeDW_rowCount (env : Env Val Opts Width) (dw : DW) (sink : Sink) :
    (closeDW env dw sink).2.1.rowCount = dw.rowCount := by
  unfold closeDW
  cases h : (tryFlush env { dw with buf := dw.buf ++ closingBytes env } sink).1 with
  | none =>
      have := (tryFlush_preserves env { dw with buf := dw.buf ++ closingBytes env } sink).1
      simp_all
  | some e =>
      have := (tryFlush_preserves env { dw with buf := dw.buf ++ closingBytes env } sink).1
      simp_all

/-- The list `[s, s+1, ..., s+n-1]` of consecutive integers. -/
def intRange (s : Int) : Nat → List Int
  | 0 => []
  | n + 1 => s :: intRange (s + 1) n

theorem intRange_eq (n : Nat) : ∀ s : Int,
    intRange s n = (List.range n).map (fun i : Nat => s + (i : Int)) := by
  induction n with
  | zero => simp [intRange]
  | succ m ih =>
    intro s
    rw [intRange, ih (s + 1), List.range_succ_eq_map]
    refine List.cons_eq_cons.mpr ⟨by simp, ?_⟩
    rw [List.map_map]
    refine List.map_congr_left ?_
    intro i _
    simp only [Function.comp]
    push_cast
    ring

theorem emittedRowNums_eq (env : Env Val Opts Width) (ops : List (Op Val Opts Width)) :
    ∀ (dw : DW) (sink : Sink),
      emittedRowNums env ops dw sink = intRange (dw.rowCount + 1) (countAddRows ops) := by
  induction ops with
  | nil => intro dw sink; simp [emittedRowNums, countAddRows, intRange]
  | cons op rest ih =>
    intro dw sink
    cases op with
    | addRow vs os =>
        simp only [emittedRowNums, countAddRows, intRange]
        rw [ih]
        have hr : (runOp env (Op.addRow vs os) dw sink).1.rowCount = dw.rowCount + 1 :=
          addRow_rowCount env vs os dw sink
        rw [hr]
    | setColWidth mi ma w =>
        simp only [emittedRowNums, countAddRows]
        rw [ih]
        have hr : (runOp env (Op.setColWidth mi ma w) dw sink).1.rowCount = dw.rowCount :=
          setColWidth_rowCount env mi ma w dw
        rw [hr]
    | setWait b =>
        simp only [emittedRowNums, countAddRows]
        rw [ih]
        have hr : (runOp env (Op.setWait b) dw sink).1.rowCount = dw.rowCount :=
          setWait_rowCount b dw
        rw [hr]
    | attach =>
        simp only [emittedRowNums, countAddRows]
        rw [ih]
        have hr : (runOp env (Op.attach : Op Val Opts Width) dw sink).1.rowCount = dw.rowCount :=
          writeToDW_rowCount dw
        rw [hr]
    | close =>
        simp only [emittedRowNums, countAddRows]
        rw [ih]
        have hr : (runOp env (Op.close : Op Val Opts Width) dw sink).1.rowCount = dw.rowCount :=
          closeDW_rowCount env dw sink
        rw [hr]

/-! ## Claim theorems -/

/-- C1: For every fresh `DirectWriter` and every sequence of operations
containing `N` calls to `AddRow`, the row numbers stamped into the emitted
row elements are `1..N` in call order with no gaps and no reuse,
regardless of flush timing, sink attachment, wait-mode toggling or sink
errors (all quantified through `ops` and `sink`); moreover each `AddRow`
appends a fragment beginning `<row r="K"` where `K = rowCount` right after
its increment, i.e. the number written equals the value of `rowCount` at
the time the row is emitted. -/
theorem addRow_emits_sequential_row_numbers :
    (∀ (env : Env Val Opts Width) (ops : List (Op Val Opts Width)) (mbs : Int)
        (sink : Sink),
        emittedRowNums env ops (freshDW mbs) sink = intRange 1 (countAddRows ops)) ∧
    (∀ (s : Int) (n : Nat),
        intRange s n = (List.range n).map (fun i : Nat => s + (i : Int))) ∧
    (∀ (env : Env Val Opts Width) (vs : List (Cell Val)) (os : List Opts) (dw : DW),
        (addRowEncode env vs os dw).2.rowCount = dw.rowCount + 1 ∧
        (addRowEncode env vs os dw).2.buf =
          dw.buf ++ rowBytes env vs os (dw.rowCount + 1)) ∧
    (∀ (env : Env Val Opts Width) (vs : List (Cell Val)) (os : List Opts) (r : Int),
        ∃ rest, rowBytes env vs os r = "<row r=\"" ++ toString r ++ "\"" ++ rest) := by
  refine ⟨?_, ?_, ?_, ?_⟩
  · intro env ops mbs sink
    rw [emittedRowNums_eq]
    rfl
  · intro s n
    exact intRange_eq n s
  · intro env vs os dw
    rw [addRowEncode_eq]
    exact ⟨rfl, rfl⟩
  · intro env vs os r
    unfold rowBytes
    cases h : rowAttrsRes env os with
    | error e =>
        exact ⟨"", by simp [String.append_assoc]⟩
    | ok attrs =>
        exact ⟨attrs ++ ">" ++ cellsStr env vs ++ "</row>",
          by simp [String.append_assoc]⟩

/-! ## Scenario equivalence machinery (early attach vs replay) -/

/-- A sink whose writes always succeed in full. -/
def okSink : Sink := { written := "", script := [] }

/-- The trace of a sequence of `SetColWidth` calls. -/
def colTrace (l : List (Int × Int × Width)) : List (Op Val Opts Width) :=
  l.map (fun t => Op.setColWidth t.1 t.2.1 t.2.2)

/-- The trace of a sequence of `AddRow` calls. -/
def rowTrace (l : List (List (Cell Val) × List Opts)) : List (Op Val Opts Width) :=
  l.map (fun t => Op.addRow t.1 t.2)

theorem runTrace_append (env : Env Val Opts Width) (xs ys : List (Op Val Opts Width)) :
    ∀ (dw : DW) (sink : Sink),
      runTrace env (xs ++ ys) dw sink =
        runTrace env ys (runTrace env xs dw sink).1 (runTrace env xs dw sink).2 := by
  induction xs with
  | nil => intro dw sink; rfl
  | cons op rest ih =>
      intro dw sink
      simp only [List.cons_append, runTrace]
      exact ih _ _

theorem setColWidth_shape (env : Env Val Opts Width) (mi ma : Int) (w : Width)
    (dw : DW) : ∃ c, (setColWidth env mi ma w dw).2 = { dw with cols := c } := by
  unfold setColWidth
  split_ifs <;> exact ⟨_, rfl⟩

theorem colTrace_shape (env : Env Val Opts Width) (l : List (Int × Int × Width)) :
    ∀ (dw : DW) (sink : Sink),
      ∃ c, runTrace env (colTrace l) dw sink = ({ dw with cols := c }, sink) := by
  induction l with
  | nil => intro dw sink; exact ⟨dw.cols, rfl⟩
  | cons t rest ih =>
      intro dw sink
      obtain ⟨c1, hc1⟩ := setColWidth_shape env t.1 t.2.1 t.2.2 dw
      obtain ⟨c2, hc2⟩ := ih { dw with cols := c1 } sink
      refine ⟨c2, ?_⟩
      simp only [colTrace, List.map_cons, runTrace, runOp]
      rw [hc1]
      exact hc2

/-- `buildHeader` reads only `cols` of the writer state. -/
theorem buildHeader_cols (env : Env Val Opts Width) (d1 d2 : DW)
    (h : d1.cols = d2.cols) : buildHeader env d1 = buildHeader env d2 := by
  unfold buildHeader
  rw [h]

theorem buildHeader_length_pos (env : Env Val Opts Width) (dw : DW) :
    0 < (buildHeader env dw).length := by
  unfold buildHeader
  have h11 : ("<sheetData>" : String).length = 11 := rfl
  simp [String.length_append, h11]

/-- Simulation relation between the state of the early-attached run
(writer `aD`, sink `aS`) and the state of the unattached run (writer
`b`): the sink bytes plus the pending buffer of the attached run are the
(lazily headed) image of the unattached run's buffer. -/
def Rel (env : Env Val Opts Width) (a : DW × Sink) (b : DW) : Prop :=
  a.1.cols = b.cols ∧ a.1.rowCount = b.rowCount ∧
  a.1.outAttached = true ∧ b.outAttached = false ∧
  a.2.script = [] ∧ b.bytesWritten = 0 ∧ 0 ≤ a.1.bytesWritten ∧
  (a.1.bytesWritten = 0 → a.2.written = "") ∧
  a.2.written ++ a.1.buf =
    (if a.1.bytesWritten = 0 then "" else buildHeader env a.1) ++ b.buf

/-- `addRow` on a row-attribute or cell-encoding error: no flush is
attempted, the encoded state is returned with the error. -/
theorem addRow_err (env : Env Val Opts Width) (vs : List (Cell Val)) (os : List Opts)
    (dw : DW) (sink : Sink) (e : String) (hre : rowErr env vs os = some e) :
    addRow env vs os dw sink =
      ((Int.ofNat (dw.buf ++ rowBytes env vs os (dw.rowCount + 1)).length, some e),
       { dw with rowCount := dw.rowCount + 1,
                 buf := dw.buf ++ rowBytes env vs os (dw.rowCount + 1),
                 maxColLengths := rowMcl env vs os dw.maxColLengths }, sink) := by
  unfold addRow
  rw [addRowEncode_eq, hre]

/-- `addRow` below the flush threshold (or in wait mode): the encoded
state is returned with no error and the sink untouched. -/
theorem addRow_ok_noflush (env : Env Val Opts Width) (vs : List (Cell Val))
    (os : List Opts) (dw : DW) (sink : Sink) (hre : rowErr env vs os = none)
    (hc : ¬ (Int.ofNat (dw.buf ++ rowBytes env vs os (dw.rowCount + 1)).length >
        dw.maxBufferSize ∧ dw.waitMode = false)) :
    addRow env vs os dw sink =
      ((Int.ofNat (dw.buf ++ rowBytes env vs os (dw.rowCount + 1)).length, none),
       { dw with rowCount := dw.rowCount + 1,
                 buf := dw.buf ++ rowBytes env vs os (dw.rowCount + 1),
                 maxColLengths := rowMcl env vs os dw.maxColLengths }, sink) := by
  unfold addRow
  rw [addRowEncode_eq, hre]
  simp only [if_neg hc]

/-- `addRow` past the flush threshold with wait mode off: the result is
that of `tryFlush` on the encoded state. -/
theorem addRow_ok_flush (env : Env Val Opts Width) (vs : List (Cell Val))
    (os : List Opts) (dw : DW) (sink : Sink) (hre : rowErr env vs os = none)
    (hc : Int.ofNat (dw.buf ++ rowBytes env vs os (dw.rowCount + 1)).length >
        dw.maxBufferSize ∧ dw.waitMode = false) :
    addRow env vs os dw sink =
      (let dwE : DW :=
        { dw with rowCount := dw.rowCount + 1,
                  buf := dw.buf ++ rowBytes env vs os (dw.rowCount + 1),
                  maxColLengths := rowMcl env vs os dw.maxColLengths }
       let r := tryFlush env dwE sink
       ((Int.ofNat r.2.1.buf.length, r.1), r.2.1, r.2.2)) := by
  unfold addRow
  rw [addRowEncode_eq, hre]
  simp only [if_pos hc]

/-- `addRow` on a writer with no sink attached: the encoded bytes stay in
the buffer, nothing reaches any sink, on every path. -/
theorem addRow_noSink (env : Env Val Opts Width) (vs : List (Cell Val))
    (os : List Opts) (dw : DW) (sink : Sink) (hout : dw.outAttached = false) :
    ((addRow env vs os dw sink).2.1.cols = dw.cols ∧
     (addRow env vs os dw sink).2.1.buf =
       dw.buf ++ rowBytes env vs os (dw.rowCount + 1) ∧
     (addRow env vs os dw sink).2.1.bytesWritten = dw.bytesWritten ∧
     (addRow env vs os dw sink).2.1.outAttached = false ∧
     (addRow env vs os dw sink).2.1.rowCount = dw.rowCount + 1) ∧
    (addRow env vs os dw sink).2.2 = sink := by
  cases hre : rowErr env vs os with
  | some e =>
      rw [addRow_err env vs os dw sink e hre]
      exact ⟨⟨rfl, rfl, rfl, hout, rfl⟩, rfl⟩
  | none =>
      by_cases hc : Int.ofNat (dw.buf ++ rowBytes env vs os (dw.rowCount + 1)).length >
          dw.maxBufferSize ∧ dw.waitMode = false
      · rw [addRow_ok_flush env vs os dw sink hre hc]
        simp only
        rw [tryFlush_noSink env _ sink (by exact hout)]
        exact ⟨⟨rfl, rfl, rfl, hout, rfl⟩, rfl⟩
      · rw [addRow_ok_noflush env vs os dw sink hre hc]
        exact ⟨⟨rfl, rfl, rfl, hout, rfl⟩, rfl⟩

/-- A flush attempt on the attached side preserves the simulation
relation (the unattached side untouched). -/
theorem rel_tryFlush (env : Env Val Opts Width) (dwE : DW) (aS : Sink) (b' : DW)
    (h : Rel env (dwE, aS) b') : Rel env (tryFlush env dwE aS).2 b' := by
  obtain ⟨hcols, hrc, haout, hbout, hscript, hbbw, hbwpos, hwr0, heq⟩ := h
  simp only at hcols hrc haout hbout hscript hbbw hbwpos hwr0 heq
  by_cases hbw : dwE.bytesWritten = 0
  · have hw0 := hwr0 hbw
    have habuf : dwE.buf = b'.buf := by
      rw [hw0, if_pos hbw, String.empty_append, String.empty_append] at heq
      exact heq
    rw [tryFlush_firstFlush_ok env dwE aS haout hbw hscript]
    have hpos := buildHeader_length_pos env dwE
    have hsumpos : (0 : Int) < Int.ofNat (buildHeader env dwE).length +
        Int.ofNat dwE.buf.length :=
      add_pos_of_pos_of_nonneg (Int.ofNat_pos.mpr hpos) (Int.ofNat_nonneg _)
    refine ⟨hcols, hrc, haout, hbout, rfl, hbbw, ?_, ?_, ?_⟩
    · show (0 : Int) ≤ Int.ofNat (buildHeader env dwE).length +
        Int.ofNat dwE.buf.length
      exact le_of_lt hsumpos
    · intro hzero
      exfalso
      have hzero' : Int.ofNat (buildHeader env dwE).length +
          Int.ofNat dwE.buf.length = 0 := hzero
      exact absurd hzero' (ne_of_gt hsumpos)
    · have hne : ¬ (Int.ofNat (buildHeader env dwE).length +
          Int.ofNat dwE.buf.length = (0 : Int)) := ne_of_gt hsumpos
      show (aS.written ++ buildHeader env dwE ++ dwE.buf) ++ "" =
        (if Int.ofNat (buildHeader env dwE).length +
            Int.ofNat dwE.buf.length = (0 : Int) then ""
         else buildHeader env dwE) ++ b'.buf
      rw [if_neg hne, hw0, habuf]
      simp [String.empty_append, String.append_empty, String.append_assoc]
  · rw [tryFlush_laterFlush_ok env dwE aS haout hbw hscript]
    have hbwgt : (0 : Int) < dwE.bytesWritten := lt_of_le_of_ne hbwpos (Ne.symm hbw)
    have hsumpos : (0 : Int) < dwE.bytesWritten + Int.ofNat dwE.buf.length :=
      add_pos_of_pos_of_nonneg hbwgt (Int.ofNat_nonneg _)
    refine ⟨hcols, hrc, haout, hbout, rfl, hbbw, ?_, ?_, ?_⟩
    · show (0 : Int) ≤ dwE.bytesWritten + Int.ofNat dwE.buf.length
      exact le_of_lt hsumpos
    · intro hzero
      exfalso
      have hzero' : dwE.bytesWritten + Int.ofNat dwE.buf.length = 0 := hzero
      exact absurd hzero' (ne_of_gt hsumpos)
    · have hne : ¬ (dwE.bytesWritten + Int.ofNat dwE.buf.length = (0 : Int)) :=
        ne_of_gt hsumpos
      show (aS.written ++ dwE.buf) ++ "" =
        (if dwE.bytesWritten + Int.ofNat dwE.buf.length = (0 : Int) then ""
         else buildHeader env dwE) ++ b'.buf
      rw [if_neg hne, String.append_empty, heq, if_neg hbw]

/-- One `AddRow` step preserves the simulation relation between the
early-attached run and the unattached run, and leaves the unattached
run's sink untouched. -/
theorem rel_step_addRow (env : Env Val Opts Width) (vs : List (Cell Val))
    (os : List Opts) (aD : DW) (aS : Sink) (b : DW) (bS : Sink)
    (h : Rel env (aD, aS) b) :
    Rel env (addRow env vs os aD aS).2 (addRow env vs os b bS).2.1 ∧
      (addRow env vs os b bS).2.2 = bS := by
  obtain ⟨hcols, hrc, haout, hbout, hscript, hbbw, hbwpos, hwr0, heq⟩ := h
  simp only at hcols hrc haout hbout hscript hbbw hbwpos hwr0 heq
  obtain ⟨⟨hBcols, hBbuf, hBbw, hBout, hBrc⟩, hBsink⟩ :=
    addRow_noSink env vs os b bS hbout
  rw [← hrc] at hBbuf
  refine ⟨?_, hBsink⟩
  have relE : Rel env
      (({ aD with rowCount := aD.rowCount + 1,
                  buf := aD.buf ++ rowBytes env vs os (aD.rowCount + 1),
                  maxColLengths := rowMcl env vs os aD.maxColLengths } : DW), aS)
      ((addRow env vs os b bS).2.1) := by
    refine ⟨?_, ?_, haout, hBout, hscript, ?_, hbwpos, hwr0, ?_⟩
    · rw [hBcols]; exact hcols
    · rw [hBrc, ← hrc]
    · rw [hBbw]; exact hbbw
    · rw [hBbuf]
      show aS.written ++ (aD.buf ++ rowBytes env vs os (aD.rowCount + 1)) =
        (if aD.bytesWritten = 0 then "" else buildHeader env aD) ++
          (b.buf ++ rowBytes env vs os (aD.rowCount + 1))
      rw [← String.append_assoc, heq, String.append_assoc]
  cases hre : rowErr env vs os with
  | some e =>
      rw [addRow_err env vs os aD aS e hre]
      exact relE
  | none =>
      by_cases hc : Int.ofNat (aD.buf ++ rowBytes env vs os (aD.rowCount + 1)).length >
          aD.maxBufferSize ∧ aD.waitMode = false
      · rw [addRow_ok_flush env vs os aD aS hre hc]
        exact rel_tryFlush env _ aS _ relE
      · rw [addRow_ok_noflush env vs os aD aS hre hc]
        exact relE

/-- The simulation relation is preserved by any sequence of `AddRow`
operations run on both sides. -/
theorem rel_trace (env : Env Val Opts Width) (rows : List (List (Cell Val) × List Opts)) :
    ∀ (aD : DW) (aS : Sink) (b : DW) (bS : Sink), Rel env (aD, aS) b →
      Rel env (runTrace env (rowTrace rows) aD aS)
        (runTrace env (rowTrace rows) b bS).1 ∧
      (runTrace env (rowTrace rows) b bS).2 = bS := by
  induction rows with
  | nil => intro aD aS b bS h; exact ⟨h, rfl⟩
  | cons t rest ih =>
      intro aD aS b bS h
      simp only [rowTrace, List.map_cons, runTrace, runOp]
      obtain ⟨h1, h2⟩ := rel_step_addRow env t.1 t.2 aD aS b bS h
      obtain ⟨ihr, ihs⟩ := ih (addRow env t.1 t.2 aD aS).2.1 (addRow env t.1 t.2 aD aS).2.2
        (addRow env t.1 t.2 b bS).2.1 (addRow env t.1 t.2 b bS).2.2 h1
      exact ⟨ihr, ihs.trans h2⟩

/-- Appending the same closing bytes on both sides preserves the
simulation relation (the unattached side additionally unlocks and raises
the completion signal, which the relation ignores). -/
theorem rel_append_closing (env : Env Val Opts Width) (aD : DW) (aS : Sink) (b : DW)
    (h : Rel env (aD, aS) b) :
    Rel env (({ aD with buf := aD.buf ++ closingBytes env } : DW), aS)
      ({ b with buf := b.buf ++ closingBytes env, locked := false,
                doneClosed := true }) := by
  obtain ⟨hcols, hrc, haout, hbout, hscript, hbbw, hbwpos, hwr0, heq⟩ := h
  simp only at hcols hrc haout hbout hscript hbbw hbwpos hwr0 heq
  refine ⟨hcols, hrc, haout, hbout, hscript, hbbw, hbwpos, hwr0, ?_⟩
  show aS.written ++ (aD.buf ++ closingBytes env) =
    (if aD.bytesWritten = 0 then "" else buildHeader env aD) ++
      (b.buf ++ closingBytes env)
  rw [← String.append_assoc, heq, String.append_assoc]

/-- After a successful flush forced on a related pair, the sink holds
exactly the header followed by the unattached side's buffer. -/
theorem rel_tryFlush_written (env : Env Val Opts Width) (dwE : DW) (aS : Sink)
    (b' : DW) (h : Rel env (dwE, aS) b') :
    (tryFlush env dwE aS).2.2.written = buildHeader env b' ++ b'.buf := by
  obtain ⟨hcols, hrc, haout, hbout, hscript, hbbw, hbwpos, hwr0, heq⟩ := h
  simp only at hcols hrc haout hbout hscript hbbw hbwpos hwr0 heq
  have hH : buildHeader env dwE = buildHeader env b' := buildHeader_cols env _ _ hcols
  by_cases hbw : dwE.bytesWritten = 0
  · have hw0 := hwr0 hbw
    have habuf : dwE.buf = b'.buf := by
      rw [hw0, if_pos hbw, String.empty_append, String.empty_append] at heq
      exact heq
    rw [tryFlush_firstFlush_ok env dwE aS haout hbw hscript]
    show aS.written ++ buildHeader env dwE ++ dwE.buf = buildHeader env b' ++ b'.buf
    rw [hw0, habuf, hH, String.empty_append]
  · rw [tryFlush_laterFlush_ok env dwE aS haout hbw hscript]
    show aS.written ++ dwE.buf = buildHeader env b' ++ b'.buf
    rw [heq, if_neg hbw, hH]

/-- The sink after `Close` is the sink after the forced flush, on both
the success and the error path. -/
theorem closeDW_sink (env : Env Val Opts Width) (dw : DW) (sink : Sink) :
    (closeDW env dw sink).2.2 =
      (tryFlush env { dw with buf := dw.buf ++ closingBytes env } sink).2.2 := by
  unfold closeDW
  cases h : (tryFlush env { dw with buf := dw.buf ++ closingBytes env } sink).1 <;>
    simp [h]

/-- `Close` on a writer with no sink attached: the closing bytes stay in
the buffer, nothing is flushed, and the completion signal is raised. -/
theorem closeDW_noSink (env : Env Val Opts Width) (dw : DW) (sink : Sink)
    (hout : dw.outAttached = false) :
    closeDW env dw sink =
      (none,
       { dw with buf := dw.buf ++ closingBytes env, locked := false,
                 doneClosed := true },
       sink) := by
  unfold closeDW
  dsimp only
  rw [tryFlush_noSink env _ sink (by exact hout)]

/-- The replay branch of `WriteTo` when nothing was ever flushed and the
writer's sink accepts everything: header then buffer, in full. -/
theorem writeToDone_ok (env : Env Val Opts Width) (dw : DW) (w : Sink)
    (h0 : dw.bytesWritten = 0) (hs : w.script = []) :
    writeToDone env dw w =
      ((Int.ofNat ((buildHeader env dw).length + dw.buf.length), none),
       { written := w.written ++ buildHeader env dw ++ dw.buf, script := [] }) := by
  obtain ⟨ww, scr⟩ := w
  simp only at hs
  subst hs
  unfold writeToDone
  rw [if_neg (by rw [h0]; exact lt_irrefl 0)]
  simp [sinkWrite, String.append_assoc]

theorem runTrace_attach (env : Env Val Opts Width) (dw : DW) (sink : Sink) :
    runTrace env [Op.attach] dw sink = (writeToDW dw, sink) := rfl

theorem runTrace_close (env : Env Val Opts Width) (dw : DW) (sink : Sink) :
    runTrace env [Op.close] dw sink = (closeDW env dw sink).2 := rfl

theorem writeToDW_notDone (dw : DW) (h : dw.doneClosed = false) :
    writeToDW dw = { dw with outAttached := true } := by
  unfold writeToDW
  rw [h]
  rfl

theorem writeTo_done (env : Env Val Opts Width) (dw : DW) (w : Sink)
    (h : dw.doneClosed = true) :
    writeTo env dw w = WriteToOutcome.replay (writeToDone env dw w) := by
  unfold writeTo
  rw [if_pos h]

/-- `Close` on a never-attached writer followed by a replaying `WriteTo`
to a fully accepting sink delivers the header followed by the whole
buffered document. -/
theorem replay_written (env : Env Val Opts Width) (b1 : DW)
    (hbout : b1.outAttached = false) (hbbw : b1.bytesWritten = 0) :
    writeTo env (closeDW env b1 okSink).2.1 okSink =
      WriteToOutcome.replay
        ((Int.ofNat ((buildHeader env b1).length +
            (b1.buf ++ closingBytes env).length), none),
         { written := buildHeader env b1 ++ (b1.buf ++ closingBytes env),
           script := [] }) := by
  rw [closeDW_noSink env b1 okSink hbout]
  rw [writeTo_done env _ okSink (by rfl)]
  rw [writeToDone_ok env _ okSink (by exact hbbw) rfl]
  rfl

/-- C2: For every sequence of `SetColWidth` calls, `N` `AddRow` calls and
a final `Close` (all sink writes succeeding, modelled by the
always-accepting `okSink`), the bytes delivered to a sink attached via
`WriteTo` before the first row are bit-identical to the bytes a sink
attached via `WriteTo` only after `Close` receives on the replay path,
given the same rows and settings. -/
theorem directWriter_replay_bit_identical :
    ∀ (env : Env Val Opts Width) (mbs : Int) (colsl : List (Int × Int × Width))
      (rows : List (List (Cell Val) × List Opts)),
      ∃ n : Int,
        writeTo env
          (runTrace env (colTrace colsl ++ (rowTrace rows ++ [Op.close]))
            (freshDW mbs) okSink).1 okSink =
          WriteToOutcome.replay ((n, none),
            { written := (runTrace env
                (colTrace colsl ++ (Op.attach :: (rowTrace rows ++ [Op.close])))
                (freshDW mbs) okSink).2.written,
              script := [] }) := by
  intro env mbs colsl rows
  obtain ⟨c, hc⟩ := colTrace_shape env colsl (freshDW mbs) okSink
  rw [runTrace_append env (colTrace colsl) (rowTrace rows ++ [Op.close]),
      runTrace_append env (colTrace colsl) (Op.attach :: (rowTrace rows ++ [Op.close])),
      hc]
  dsimp only
  rw [show (Op.attach :: (rowTrace rows ++ [Op.close]) : List (Op Val Opts Width))
        = [Op.attach] ++ (rowTrace rows ++ [Op.close]) from rfl,
      runTrace_append env [Op.attach] (rowTrace rows ++ [Op.close]),
      runTrace_attach env _ okSink]
  dsimp only
  rw [writeToDW_notDone _ (by rfl)]
  rw [runTrace_append env (rowTrace rows) [Op.close],
      runTrace_append env (rowTrace rows) [Op.close]]
  have hrel0 : Rel env
      (({ { freshDW mbs with cols := c } with outAttached := true } : DW), okSink)
      ({ freshDW mbs with cols := c } : DW) :=
    ⟨rfl, rfl, rfl, rfl, rfl, rfl, le_refl 0, fun _ => rfl, by rfl⟩
  obtain ⟨hrelRows, hsinkB⟩ := rel_trace env rows _ okSink _ okSink hrel0
  rw [hsinkB]
  rw [runTrace_close env _ okSink, runTrace_close env _ _]
  dsimp only
  rw [replay_written env _ (hrelRows.2.2.2.1) (hrelRows.2.2.2.2.2.1)]
  rw [closeDW_sink env _ _]
  rw [rel_tryFlush_written env _ _ _
    (rel_append_closing env _ _ _ hrelRows)]
  exact ⟨_, rfl⟩

/-- C3: The worksheet header (prolog, worksheet-open tag with namespaces,
leading worksheet fields, the cols block when width directives exist, and
the sheetData open tag) is delivered exactly once, at the first
successful flush (`bytesWritten == 0`), never during `NewDirectWriter`
(a fresh writer has an empty buffer and no bytes written); after that
first flush `bytesWritten` is positive, and later flushes deliver only
the buffer; consequently column widths registered after creation but
before the first flush land in `cols` and are emitted in the header. -/
theorem header_built_once_at_first_flush :
    (∀ mbs : Int, (freshDW mbs).buf = "" ∧ (freshDW mbs).bytesWritten = 0) ∧
    (∀ (env : Env Val Opts Width) (dw : DW) (sink : Sink),
      dw.outAttached = true → dw.bytesWritten = 0 → sink.script = [] →
        (tryFlush env dw sink).2.2.written =
          sink.written ++ buildHeader env dw ++ dw.buf ∧
        (tryFlush env dw sink).2.1.bytesWritten =
          Int.ofNat (buildHeader env dw).length + Int.ofNat dw.buf.length ∧
        0 < (buildHeader env dw).length) ∧
    (∀ (env : Env Val Opts Width) (dw : DW) (sink : Sink),
      dw.outAttached = true → ¬ dw.bytesWritten = 0 → sink.script = [] →
        (tryFlush env dw sink).2.2.written = sink.written ++ dw.buf) ∧
    (∀ (env : Env Val Opts Width) (dw : DW), dw.cols ≠ "" →
        buildHeader env dw =
          env.xmlHeader ++ "<worksheet" ++ env.nsMap ++ env.wsFields 2 5 ++
            ("<cols>" ++ dw.cols ++ "</cols>") ++ "<sheetData>") ∧
    (∀ (env : Env Val Opts Width) (mi ma : Int) (w : Width) (dw : DW),
      dw.bytesWritten ≤ 0 → mi ≤ env.totalColumns → ma ≤ env.totalColumns →
      1 ≤ mi → 1 ≤ ma → env.widthExceedsMax w = false → mi ≤ ma →
        setColWidth env mi ma w dw =
          (none, { dw with cols := dw.cols ++ env.fmtCol mi ma w })) := by
  refine ⟨fun _ => ⟨rfl, rfl⟩, ?_, ?_, ?_, ?_⟩
  · intro env dw sink hout h0 hs
    rw [tryFlush_firstFlush_ok env dw sink hout h0 hs]
    exact ⟨rfl, rfl, buildHeader_length_pos env dw⟩
  · intro env dw sink hout h0 hs
    rw [tryFlush_laterFlush_ok env dw sink hout h0 hs]
  · intro env dw hne
    have hpos : dw.cols.length > 0 := by
      cases hcs : dw.cols with
      | mk data =>
        cases data with
        | nil => exact absurd hcs hne
        | cons a l => simp [String.length]
    unfold buildHeader
    rw [if_pos hpos]
  · intro env mi ma w dw hbw hmi hma h1mi h1ma hwid hmm
    unfold setColWidth
    rw [if_neg (not_lt.mpr hbw),
        if_neg (not_or.mpr ⟨not_lt.mpr hmi, not_lt.mpr hma⟩),
        if_neg (not_or.mpr ⟨not_lt.mpr h1mi, not_lt.mpr h1ma⟩),
        if_neg (by rw [hwid]; exact Bool.false_ne_true),
        if_neg (not_lt.mpr hmm)]

/-- Witness for C3 at concrete inputs. -/
theorem header_built_once_at_first_flush_witness :
    (({ freshDW 8 with outAttached := true, cols := "<col/>", buf := "B" } : DW).outAttached
        = true ∧
      ({ freshDW 8 with outAttached := true, cols := "<col/>", buf := "B" } : DW).bytesWritten
        = 0 ∧
      okSink.script = []) ∧
    (tryFlush envW { freshDW 8 with outAttached := true, cols := "<col/>", buf := "B" }
        okSink).2.2.written =
      okSink.written ++
        buildHeader envW
          { freshDW 8 with outAttached := true, cols := "<col/>", buf := "B" } ++ "B" ∧
    buildHeader envW { freshDW 8 with outAttached := true, cols := "<col/>", buf := "B" }
      = "<?xml?>" ++ "<worksheet" ++ " xmlns=\"ns\"" ++ "<dim/>" ++
          ("<cols>" ++ "<col/>" ++ "</cols>") ++ "<sheetData>" ∧
    setColWidth envW 1 2 () (freshDW 8) =
      (none, { freshDW 8 with cols := "" ++ envW.fmtCol 1 2 () }) := by
  refine ⟨⟨rfl, rfl, rfl⟩, ?_, ?_, ?_⟩
  · exact (header_built_once_at_first_flush.2.1 envW
      { freshDW 8 with outAttached := true, cols := "<col/>", buf := "B" }
      okSink rfl rfl rfl).1
  · have h := header_built_once_at_first_flush.2.2.2.1 envW
      { freshDW 8 with outAttached := true, cols := "<col/>", buf := "B" }
      (by decide)
    rw [h]
    rfl
  · exact header_built_once_at_first_flush.2.2.2.2 envW 1 2 () (freshDW 8)
      (by decide) (by decide) (by decide) (by decide) (by decide) (by decide)
      (by decide)

/-- C4: A sink write failure during a flush is returned synchronously to
the caller of the operation that triggered the flush (`AddRow` or
`Close`), the buffer is left un-truncated (no buffered byte is lost), and
the flush is not retried (exactly the scripted write attempts are
consumed). Both failure points are covered: the buffer write of a later
flush, and the buffer write following a successful header write on the
first flush. -/
theorem flush_error_returned_buffer_preserved :
    (∀ (env : Env Val Opts Width) (dw : DW) (sink : Sink) (n : Nat) (e : String)
        (rest : List WResp),
      dw.outAttached = true → ¬ dw.bytesWritten = 0 →
      sink.script = WResp.fail n e :: rest →
        (tryFlush env dw sink).1 = some e ∧
        (tryFlush env dw sink).2.1.buf = dw.buf ∧
        (tryFlush env dw sink).2.1.bytesWritten = dw.bytesWritten ∧
        (tryFlush env dw sink).2.2.script = rest) ∧
    (∀ (env : Env Val Opts Width) (dw : DW) (sink : Sink) (n : Nat) (e : String)
        (rest : List WResp),
      dw.outAttached = true → dw.bytesWritten = 0 →
      sink.script = WResp.ok :: WResp.fail n e :: rest →
        (tryFlush env dw sink).1 = some e ∧
        (tryFlush env dw sink).2.1.buf = dw.buf ∧
        (tryFlush env dw sink).2.2.script = rest) ∧
    (∀ (env : Env Val Opts Width) (vs : List (Cell Val)) (os : List Opts) (dw : DW)
        (sink : Sink) (n : Nat) (e : String) (rest : List WResp),
      rowErr env vs os = none → dw.outAttached = true → ¬ dw.bytesWritten = 0 →
      dw.waitMode = false →
      sink.script = WResp.fail n e :: rest →
      Int.ofNat (dw.buf ++ rowBytes env vs os (dw.rowCount + 1)).length >
        dw.maxBufferSize →
        (addRow env vs os dw sink).1 =
          (Int.ofNat (dw.buf ++ rowBytes env vs os (dw.rowCount + 1)).length,
            some e) ∧
        (addRow env vs os dw sink).2.1.buf =
          dw.buf ++ rowBytes env vs os (dw.rowCount + 1)) ∧
    (∀ (env : Env Val Opts Width) (dw : DW) (sink : Sink) (n : Nat) (e : String)
        (rest : List WResp),
      dw.outAttached = true → ¬ dw.bytesWritten = 0 →
      sink.script = WResp.fail n e :: rest →
        (closeDW env dw sink).1 = some e ∧
        (closeDW env dw sink).2.1.buf = dw.buf ++ closingBytes env ∧
        (closeDW env dw sink).2.1.doneClosed = dw.doneClosed) := by
  refine ⟨?_, ?_, ?_, ?_⟩
  · intro env dw sink n e rest hout h0 hs
    rw [tryFlush_bufFail env dw sink n e rest hout h0 hs]
    exact ⟨rfl, rfl, rfl, rfl⟩
  · intro env dw sink n e rest hout h0 hs
    rw [tryFlush_firstFlush_bufFail env dw sink n e rest hout h0 hs]
    exact ⟨rfl, rfl, rfl⟩
  · intro env vs os dw sink n e rest hre hout h0 hwait hs hlen
    rw [addRow_ok_flush env vs os dw sink hre ⟨hlen, hwait⟩]
    dsimp only
    rw [tryFlush_bufFail env _ sink n e rest (by exact hout) (by exact h0)
      (by exact hs)]
    exact ⟨rfl, rfl⟩
  · intro env dw sink n e rest hout h0 hs
    unfold closeDW
    dsimp only
    rw [tryFlush_bufFail env _ sink n e rest (by exact hout) (by exact h0)
      (by exact hs)]
    exact ⟨rfl, rfl, rfl⟩

/-- Witness for C4 at concrete inputs. -/
theorem flush_error_returned_buffer_preserved_witness :
    (dwW7.outAttached = true ∧ ¬ dwW7.bytesWritten = 0 ∧
      sinkFailW.script = WResp.fail 2 "boom" :: []) ∧
    (tryFlush envW dwW7 sinkFailW).1 = some "boom" ∧
    (tryFlush envW dwW7 sinkFailW).2.1.buf = "HELLO" := by
  refine ⟨⟨rfl, by decide, rfl⟩, ?_, ?_⟩
  · exact (flush_error_returned_buffer_preserved.1 envW dwW7 sinkFailW 2 "boom" []
      rfl (by decide) rfl).1
  · exact (flush_error_returned_buffer_preserved.1 envW dwW7 sinkFailW 2 "boom" []
      rfl (by decide) rfl).2.1

/-- C5: Once the completion signal has been raised, `WriteTo` performs a
single terminal non-blocking operation: when no flush ever reached a sink
(`bytesWritten = 0`) it writes the header followed by the remaining
buffered bytes to the supplied writer and returns their total; when data
was already flushed it refuses the new writer, delivering nothing. -/
theorem writeTo_after_close_replays :
    (∀ (env : Env Val Opts Width) (dw : DW) (w : Sink),
      dw.doneClosed = true → dw.bytesWritten = 0 → w.script = [] →
        writeTo env dw w = WriteToOutcome.replay
          ((Int.ofNat ((buildHeader env dw).length + dw.buf.length), none),
           { written := w.written ++ buildHeader env dw ++ dw.buf,
             script := [] })) ∧
    (∀ (env : Env Val Opts Width) (dw : DW) (w : Sink),
      dw.doneClosed = true → dw.bytesWritten > 0 →
        writeTo env dw w = WriteToOutcome.replay
          ((0, some "Cant\x27t write to new writer w since part of the data already been written and flushed."),
           w)) := by
  constructor
  · intro env dw w hd h0 hs
    rw [writeTo_done env dw w hd, writeToDone_ok env dw w h0 hs]
  · intro env dw w hd hpos
    rw [writeTo_done env dw w hd]
    unfold writeToDone
    rw [if_pos hpos]

/-- Witness for C5 at concrete inputs. -/
theorem writeTo_after_close_replays_witness :
    (dwDoneW.doneClosed = true ∧ dwDoneW.bytesWritten = 0 ∧ okSink.script = []) ∧
    writeTo envW dwDoneW okSink = WriteToOutcome.replay
      ((Int.ofNat ((buildHeader envW dwDoneW).length + dwDoneW.buf.length), none),
       { written := okSink.written ++ buildHeader envW dwDoneW ++ dwDoneW.buf,
         script := [] }) :=
  ⟨⟨rfl, rfl, rfl⟩, writeTo_after_close_replays.1 envW dwDoneW okSink rfl rfl rfl⟩

/-- C7: `SetWait(true)` fails iff `bytesWritten > 0` and `SetWait(false)`
always succeeds; while wait mode is on, `AddRow` delivers nothing to the
sink even when the buffered count it returns exceeds `maxBufferSize`;
after disabling wait mode, the next `AddRow` whose buffer exceeds the
threshold (sink attached, writes succeeding) drains the buffer and
returns a buffered count of `0`. -/
theorem wait_mode_semantics :
    (∀ dw : DW, (setWait true dw).1.isSome = true ↔ dw.bytesWritten > 0) ∧
    (∀ dw : DW, dw.bytesWritten ≤ 0 →
        setWait true dw = (none, { dw with waitMode := true })) ∧
    (∀ dw : DW, setWait false dw = (none, { dw with waitMode := false })) ∧
    (∀ (env : Env Val Opts Width) (vs : List (Cell Val)) (os : List Opts)
        (dw : DW) (sink : Sink),
      dw.waitMode = true →
        (addRow env vs os dw sink).2.2 = sink ∧
        (addRow env vs os dw sink).2.1.bytesWritten = dw.bytesWritten) ∧
    (∀ (env : Env Val Opts Width) (vs : List (Cell Val)) (os : List Opts)
        (dw : DW) (sink : Sink),
      rowErr env vs os = none → dw.outAttached = true → sink.script = [] →
      Int.ofNat (dw.buf ++ rowBytes env vs os (dw.rowCount + 1)).length >
        dw.maxBufferSize →
        (addRow env vs os (setWait false dw).2 sink).1 = (0, none) ∧
        (addRow env vs os (setWait false dw).2 sink).2.1.buf = "") := by
  refine ⟨?_, ?_, ?_, ?_, ?_⟩
  · intro dw
    unfold setWait
    rw [if_pos rfl]
    by_cases h : dw.bytesWritten > 0
    · rw [if_pos h]
      simp [h]
    · rw [if_neg h]
      simp [h]
  · intro dw h
    unfold setWait
    rw [if_pos rfl, if_neg (not_lt.mpr h)]
  · intro dw
    rfl
  · intro env vs os dw sink hwait
    cases hre : rowErr env vs os with
    | some e =>
        rw [addRow_err env vs os dw sink e hre]
        exact ⟨rfl, rfl⟩
    | none =>
        have hc : ¬ (Int.ofNat (dw.buf ++ rowBytes env vs os (dw.rowCount + 1)).length >
            dw.maxBufferSize ∧ dw.waitMode = false) := by
          intro hcon
          rw [hwait] at hcon
          exact absurd hcon.2 (by simp)
        rw [addRow_ok_noflush env vs os dw sink hre hc]
        exact ⟨rfl, rfl⟩
  · intro env vs os dw sink hre hout hs hlen
    have hdw : (setWait false dw).2 = { dw with waitMode := false } := rfl
    rw [hdw]
    have hc : Int.ofNat (({ dw with waitMode := false } : DW).buf ++
        rowBytes env vs os (({ dw with waitMode := false } : DW).rowCount + 1)).length >
          ({ dw with waitMode := false } : DW).maxBufferSize ∧
        ({ dw with waitMode := false } : DW).waitMode = false := ⟨hlen, rfl⟩
    rw [addRow_ok_flush env vs os _ sink hre hc]
    dsimp only
    by_cases hbw : dw.bytesWritten = 0
    · rw [tryFlush_firstFlush_ok env _ sink (by exact hout) (by exact hbw)
        (by exact hs)]
      exact ⟨rfl, rfl⟩
    · rw [tryFlush_laterFlush_ok env _ sink (by exact hout) (by exact hbw)
        (by exact hs)]
      exact ⟨rfl, rfl⟩

/-- Witness for C7 at concrete inputs. -/
theorem wait_mode_semantics_witness :
    (dwWaitW.waitMode = true ∧
      (addRow envW [cellW "0123456789"] [] dwWaitW okSink).2.2 = okSink) ∧
    (rowErr envW [cellW "0123456789"] ([] : List String) = none ∧
      dwWaitW.outAttached = true ∧ okSink.script = [] ∧
      Int.ofNat (dwWaitW.buf ++
          rowBytes envW [cellW "0123456789"] [] (dwWaitW.rowCount + 1)).length >
        dwWaitW.maxBufferSize) ∧
    (addRow envW [cellW "0123456789"] [] (setWait false dwWaitW).2 okSink).1 =
      (0, none) ∧
    (addRow envW [cellW "0123456789"] [] (setWait false dwWaitW).2 okSink).2.1.buf
      = "" := by
  refine ⟨⟨rfl, ?_⟩, ⟨by decide, rfl, rfl, by decide⟩, ?_, ?_⟩
  · exact (wait_mode_semantics.2.2.2.1 envW [cellW "0123456789"] [] dwWaitW okSink
      rfl).1
  · exact (wait_mode_semantics.2.2.2.2 envW [cellW "0123456789"] [] dwWaitW okSink
      (by decide) rfl rfl (by decide)).1
  · exact (wait_mode_semantics.2.2.2.2 envW [cellW "0123456789"] [] dwWaitW okSink
      (by decide) rfl rfl (by decide)).2

/-- Cells before the first failing cell keep their bytes; the failing
cell and everything after it contribute nothing. -/
theorem cellsStr_break (env : Env Val Opts Width) (pre : List (Cell Val))
    (bad : Cell Val) (rest : List (Cell Val)) (e : String)
    (hok : ∀ v ∈ pre, (encodeCell env v).isOk = true)
    (hbad : encodeCell env bad = Except.error e) :
    cellsStr env (pre ++ bad :: rest) = cellsStr env pre := by
  induction pre with
  | nil => simp [cellsStr, hbad]
  | cons v pre ih =>
      have hv := hok v (List.mem_cons_self v pre)
      cases hc : encodeCell env v with
      | error e2 => rw [hc] at hv; simp [Except.isOk, Except.toBool] at hv
      | ok c =>
          simp only [List.cons_append, cellsStr, hc]
          exact congrArg (fun x => appendCellNoRef env.escape "" c ++ x)
            (ih (fun w hw => hok w (List.mem_cons_of_mem v hw)))

/-- The cell loop reports the first failing cell's error. -/
theorem cellsErr_break (env : Env Val Opts Width) (pre : List (Cell Val))
    (bad : Cell Val) (rest : List (Cell Val)) (e : String)
    (hok : ∀ v ∈ pre, (encodeCell env v).isOk = true)
    (hbad : encodeCell env bad = Except.error e) :
    cellsErr env (pre ++ bad :: rest) = some e := by
  induction pre with
  | nil => simp [cellsErr, hbad]
  | cons v pre ih =>
      have hv := hok v (List.mem_cons_self v pre)
      cases hc : encodeCell env v with
      | error e2 => rw [hc] at hv; simp [Except.isOk, Except.toBool] at hv
      | ok c =>
          simp only [List.cons_append, cellsErr, hc]
          exact ih (fun w hw => hok w (List.mem_cons_of_mem v hw))

/-- C9: A header-write failure on the first flush returns the error with
the internal mutex still locked, `bytesWritten` still `0` and the buffer
unchanged — unlike the buffer-write failure path, which unlocks before
returning. -/
theorem tryFlush_header_error_keeps_lock :
    (∀ (env : Env Val Opts Width) (dw : DW) (sink : Sink) (n : Nat) (e : String)
        (rest : List WResp),
      dw.outAttached = true → dw.bytesWritten = 0 →
      sink.script = WResp.fail n e :: rest →
        tryFlush env dw sink =
          (some e, { dw with locked := true },
           { written := sink.written ++
               (buildHeader env dw).take (min n (buildHeader env dw).length),
             script := rest }) ∧
        (tryFlush env dw sink).2.1.locked = true ∧
        (tryFlush env dw sink).2.1.bytesWritten = 0 ∧
        (tryFlush env dw sink).2.1.buf = dw.buf) ∧
    (∀ (env : Env Val Opts Width) (dw : DW) (sink : Sink) (n : Nat) (e : String)
        (rest : List WResp),
      dw.outAttached = true → ¬ dw.bytesWritten = 0 →
      sink.script = WResp.fail n e :: rest →
        (tryFlush env dw sink).1 = some e ∧
        (tryFlush env dw sink).2.1.locked = false) := by
  constructor
  · intro env dw sink n e rest hout h0 hs
    rw [tryFlush_headerFail env dw sink n e rest hout h0 hs]
    exact ⟨rfl, rfl, h0, rfl⟩
  · intro env dw sink n e rest hout h0 hs
    rw [tryFlush_bufFail env dw sink n e rest hout h0 hs]
    exact ⟨rfl, rfl⟩

/-- Witness for C9 at concrete inputs. -/
theorem tryFlush_header_error_keeps_lock_witness :
    (dwHdrW.outAttached = true ∧ dwHdrW.bytesWritten = 0 ∧
      sinkFailW.script = WResp.fail 2 "boom" :: []) ∧
    (tryFlush envW dwHdrW sinkFailW).2.1.locked = true ∧
    (tryFlush envW dwHdrW sinkFailW).2.1.bytesWritten = 0 ∧
    (tryFlush envW dwHdrW sinkFailW).2.1.buf = "HELLO" := by
  refine ⟨⟨rfl, rfl, rfl⟩, ?_⟩
  have h := (tryFlush_header_error_keeps_lock.1 envW dwHdrW sinkFailW 2 "boom" []
    rfl rfl rfl)
  exact ⟨h.2.1, h.2.2.1, h.2.2.2⟩

/-- C10: When `marshalRowAttrs` fails, `AddRow` returns the error after
the opening fragment `<row r="N"` (with no closing tag) has already been
appended and `rowCount` has already been incremented; the
`maxColLengths` bookkeeping is untouched, so the buffer is left as this
unclosed (not well-formed) fragment. -/
theorem row_attrs_error_leaves_open_row_fragment :
    ∀ (env : Env Val Opts Width) (vs : List (Cell Val)) (os : List Opts)
      (dw : DW) (sink : Sink) (e : String),
      os.isEmpty = false → env.marshalRowAttrs os = Except.error e →
        addRow env vs os dw sink =
          ((Int.ofNat (dw.buf ++
              ("<row r=\"" ++ toString (dw.rowCount + 1) ++ "\"")).length, some e),
           { dw with rowCount := dw.rowCount + 1,
                     buf := dw.buf ++
                       ("<row r=\"" ++ toString (dw.rowCount + 1) ++ "\"") },
           sink) ∧
        (addRow env vs os dw sink).2.1.rowCount = dw.rowCount + 1 := by
  intro env vs os dw sink e hosE hmarsh
  have hra : rowAttrsRes env os = Except.error e := by
    unfold rowAttrsRes
    rw [if_neg (by rw [hosE]; exact Bool.false_ne_true), hmarsh]
  have hre : rowErr env vs os = some e := by
    unfold rowErr
    rw [hra]
  have hrb : rowBytes env vs os (dw.rowCount + 1) =
      "<row r=\"" ++ toString (dw.rowCount + 1) ++ "\"" := by
    unfold rowBytes
    rw [hra]
  have hrm : rowMcl env vs os dw.maxColLengths = dw.maxColLengths := by
    unfold rowMcl
    rw [hra]
  rw [addRow_err env vs os dw sink e hre, hrb, hrm]
  exact ⟨rfl, rfl⟩

/-- Witness for C10 at concrete inputs: the buffer is left as exactly the
unclosed fragment. -/
theorem row_attrs_error_leaves_open_row_fragment_witness :
    ((["bad"] : List String).isEmpty = false ∧
      envW.marshalRowAttrs ["bad"] = Except.error "badopt") ∧
    (addRow envW [cellW "x"] ["bad"] (freshDW 100) okSink).2.1.rowCount = 1 ∧
    (addRow envW [cellW "x"] ["bad"] (freshDW 100) okSink).2.1.buf =
      "<row r=\"1\"" := by
  refine ⟨⟨rfl, rfl⟩, ?_, ?_⟩
  · exact (row_attrs_error_leaves_open_row_fragment envW [cellW "x"] ["bad"]
      (freshDW 100) okSink "badopt" rfl rfl).2
  · have h := (row_attrs_error_leaves_open_row_fragment envW [cellW "x"] ["bad"]
      (freshDW 100) okSink "badopt" rfl rfl).1
    rw [h]
    decide

/-- C8: If the value encoder fails for a cell, `AddRow` still appends the
`</row>` closing tag before returning the error, the cells preceding the
failing cell keep their bytes (`cellsStr env pre`) and the failing cell
and its successors contribute nothing; the sink is untouched. -/
theorem cell_encode_error_still_closes_row :
    ∀ (env : Env Val Opts Width) (pre rest : List (Cell Val)) (bad : Cell Val)
      (os : List Opts) (dw : DW) (sink : Sink) (e : String) (attrs : String),
      (∀ v ∈ pre, (encodeCell env v).isOk = true) →
      encodeCell env bad = Except.error e →
      rowAttrsRes env os = Except.ok attrs →
        addRow env (pre ++ bad :: rest) os dw sink =
          ((Int.ofNat (dw.buf ++
              ("<row r=\"" ++ toString (dw.rowCount + 1) ++ "\"" ++ attrs ++ ">" ++
                cellsStr env pre ++ "</row>")).length, some e),
           { dw with rowCount := dw.rowCount + 1,
                     buf := dw.buf ++
                       ("<row r=\"" ++ toString (dw.rowCount + 1) ++ "\"" ++
                         attrs ++ ">" ++ cellsStr env pre ++ "</row>"),
                     maxColLengths :=
                       rowMcl env (pre ++ bad :: rest) os dw.maxColLengths },
           sink) := by
  intro env pre rest bad os dw sink e attrs hok hbad hattrs
  have hre : rowErr env (pre ++ bad :: rest) os = some e := by
    unfold rowErr
    rw [hattrs, cellsErr_break env pre bad rest e hok hbad]
  have hrb : rowBytes env (pre ++ bad :: rest) os (dw.rowCount + 1) =
      "<row r=\"" ++ toString (dw.rowCount + 1) ++ "\"" ++ attrs ++ ">" ++
        cellsStr env pre ++ "</row>" := by
    unfold rowBytes
    rw [hattrs, cellsStr_break env pre bad rest e hok hbad]
  rw [addRow_err env (pre ++ bad :: rest) os dw sink e hre, hrb]

/-- Witness for C8 at concrete inputs: the preceding cell's bytes remain
and the row is closed. -/
theorem cell_encode_error_still_closes_row_witness :
    ((∀ v ∈ [cellW "ab"], (encodeCell envW v).isOk = true) ∧
      encodeCell envW (cellW "ERR") = Except.error "encfail" ∧
      rowAttrsRes envW ([] : List String) = Except.ok "") ∧
    (addRow envW [cellW "ab", cellW "ERR", cellW "cd"] [] (freshDW 99)
        okSink).2.1.buf =
      "<row r=\"1\"><c t=\"str\"><v>ab</v></c></row>" := by
  refine ⟨⟨by decide, rfl, rfl⟩, ?_⟩
  have h := cell_encode_error_still_closes_row envW [cellW "ab"] [cellW "cd"]
    (cellW "ERR") [] (freshDW 99) okSink "encfail" "" (by decide) rfl rfl
  rw [show ([cellW "ab", cellW "ERR", cellW "cd"] : List (Cell String)) =
    [cellW "ab"] ++ cellW "ERR" :: [cellW "cd"] from rfl, h]
  decide

/-- C6 counterexample: the `direct.go` variant of `appendCellNoRef`
drops the style attribute for the nonzero style index 1: the emitted cell
is `<c></c>` with no ` s=` attribute at all. -/
theorem style_attr_iff_nonzero_false_on_v0 :
    cS1.s ≠ 0 ∧
    appendCellNoRefV0 (fun s => s) "" cS1 = "<c></c>" ∧
    strHasSub (appendCellNoRefV0 (fun s => s) "" cS1) " s=" = false := by
  refine ⟨by decide, by decide, by decide⟩

/-- C6 amended: the `part_001` variant of `appendCellNoRef` emits the
style attribute iff `StyleID ≠ 0`, the type attribute iff the type tag is
non-empty, and the whitespace-preservation attribute iff the encoder set
it, in the order `xml:space`, `s`, `t`, followed by an `<f>` child iff a
formula is present and a `<v>` child iff the value text is non-empty;
the `direct.go` variant instead guards the style attribute with
`StyleID > 1` and writes the whitespace attribute with a stray quote
(` xml:"`); at the `AddRow` boundary the formula child is present iff the
cell's formula string is non-empty. -/
theorem cell_attr_emission_characterization :
    (∀ (esc : String → String) (dst : String) (c : XlsxC),
        appendCellNoRef esc dst c =
          dst ++ "<c" ++
            (if c.xmlSpaceValue ≠ "" then
              " xml:" ++ c.xmlSpaceName ++ "=\"" ++ c.xmlSpaceValue ++ "\""
             else "") ++
            (if c.s ≠ 0 then " s=\"" ++ toString c.s ++ "\"" else "") ++
            (if c.t ≠ "" then " t=\"" ++ c.t ++ "\"" else "") ++ ">" ++
            (match c.f with
             | some fc => "<f>" ++ esc fc ++ "</f>"
             | none => "") ++
            (if c.v ≠ "" then "<v>" ++ esc c.v ++ "</v>" else "") ++ "</c>") ∧
    (∀ (esc : String → String) (dst : String) (c : XlsxC),
        appendCellNoRefV0 esc dst c =
          dst ++ "<c" ++
            (if c.xmlSpaceValue ≠ "" then
              " xml:\"" ++ c.xmlSpaceName ++ "=\"" ++ c.xmlSpaceValue ++ "\""
             else "") ++
            (if c.s > 1 then " s=\"" ++ toString c.s ++ "\"" else "") ++
            (if c.t ≠ "" then " t=\"" ++ c.t ++ "\"" else "") ++ ">" ++
            (match c.f with
             | some fc => "<f>" ++ esc fc ++ "</f>"
             | none => "") ++
            (if c.v ≠ "" then "<v>" ++ esc c.v ++ "</v>" else "") ++ "</c>") ∧
    (∀ (env : Env Val Opts Width) (cell : Cell Val) (c : XlsxC),
        encodeCell env cell = Except.ok c →
          (c.f.isSome = true ↔ cell.formula ≠ "")) := by
  refine ⟨?_, ?_, ?_⟩
  · intro esc dst c
    unfold appendCellNoRef
    cases hf : c.f <;> split_ifs <;>
      simp only [String.append_assoc, String.append_empty, String.empty_append]
  · intro esc dst c
    unfold appendCellNoRefV0
    cases hf : c.f <;> split_ifs <;>
      simp only [String.append_assoc, String.append_empty, String.empty_append]
  · intro env cell c h
    unfold encodeCell at h
    cases hv : env.setCellVal cell.value with
    | error e => rw [hv] at h; exact absurd h (by simp)
    | ok enc =>
        rw [hv] at h
        have hc : c =
            { s := cell.styleID, t := enc.t, v := enc.v,
              f := if cell.formula ≠ "" then some cell.formula else none,
              xmlSpaceName := enc.xmlSpaceName,
              xmlSpaceValue := enc.xmlSpaceValue } := by
          cases h
          rfl
        rw [hc]
        by_cases hfm : cell.formula ≠ ""
        · simp [hfm]
        · simp [hfm]

/-- Witness for the amended C6 at a concrete input: a cell with a formula
gets an `<f>` child. -/
theorem cell_attr_emission_characterization_witness :
    encodeCell envW { value := "x", styleID := 0, formula := "SUM(A1)" } =
      Except.ok
        { s := 0, t := "str", v := "x", f := some "SUM(A1)",
          xmlSpaceName := "space", xmlSpaceValue := "" } ∧
    (({ s := 0, t := "str", v := "x", f := some "SUM(A1)",
        xmlSpaceName := "space", xmlSpaceValue := "" } : XlsxC).f.isSome = true ↔
      ({ value := "x", styleID := 0, formula := "SUM(A1)" } : Cell String).formula
        ≠ "") := by
  refine ⟨rfl, ?_⟩
  exact cell_attr_emission_characterization.2.2 envW
    { value := "x", styleID := 0, formula := "SUM(A1)" }
    { s := 0, t := "str", v := "x", f := some "SUM(A1)",
      xmlSpaceName := "space", xmlSpaceValue := "" } rfl

end Excelize
